import Mathlib

/-!
Shallow embedding of the workflow-compliance enforcement core of the
restaurant-agent repository (`restaurant_agent/callbacks.py`).

The session state map (`tool_context.state` / `callback_context.state`) is a
total function from string keys to booleans (Python `dict.get(key, False)`).
An event of the session log carries an optional `function_call` name and an
optional `function_response` payload (a string-keyed record); this mirrors how
the repository's own unit tests build events: one event records a tool
invocation together with the response attached to it.  An `LlmRequest` is
reduced to its `contents` list; a content has a role and a list of parts, a
part optionally carries a `function_call`.  Both callbacks always return
`None` in Python, so a gate is modelled as a function from
(agent name, state, events, request contents) to the new (state, contents)
pair; "pass" means the returned contents equal the input contents.
-/

namespace RestaurantAgent

/-- A session state map: step-completion keys to booleans, absent keys read
as `false` (Python `state.get(key, False)`). -/
abbrev StateMap := String → Bool

/-- Pointwise update of a state map, Python `state[key] = value`. -/
def setKey (st : StateMap) (k : String) (b : Bool) : StateMap :=
  fun k' => if k' = k then b else st k'

/-- One session event, as the repository's tests build them: an optional
function call name and an optional response record attached to the same
event.  `function_response = none` covers both an absent attribute and a
non-dict payload (`isinstance(response, dict)` fails). -/
structure Event where
  function_call : Option String
  function_response : Option (List (String × String))
deriving DecidableEq

/-- One part of a request content; only the `function_call` and `text`
fields are observed by the callbacks. -/
structure Part where
  function_call : Option String
  text : Option String
deriving DecidableEq

/-- One content block of an `LlmRequest`. -/
structure Content where
  role : String
  parts : List Part
deriving DecidableEq

/-- The synthetic instruction block the gates build:
`types.Content(role="user", parts=[types.Part.from_text(text=...)])`. -/
def instructionContent (text : String) : Content :=
  ⟨"user", [⟨none, some text⟩]⟩

/-- `REQUIRED_WAITER_TOOLS` — tools that must be called before the waiter
interacts with customers. -/
def REQUIRED_WAITER_TOOLS : List String := ["get_customer_orders", "get_menu"]

/-- `CAPTAIN_WORKFLOW_TOOLS` — required tools for the captain workflow,
in order. -/
def CAPTAIN_WORKFLOW_TOOLS : List String :=
  ["get_customer", "get_reservations", "check_table_availability",
   "assign_table", "transfer_to_agent"]

/-- The state key the waiter callbacks use: `f"waiter_{tool_name}_called"`. -/
def waiterKey (t : String) : String := "waiter_" ++ t ++ "_called"

/-- The state key the captain callbacks use: `f"captain_{tool_name}_called"`. -/
def captainKey (t : String) : String := "captain_" ++ t ++ "_called"

/-- Whether an event records a call of tool `t`
(`hasattr(event, "function_call") and event.function_call and
event.function_call.name == t`). -/
def eventCompletes (t : String) (e : Event) : Bool :=
  match e.function_call with
  | some n => n == t
  | none => false

/-- `track_waiter_tools`: after a tool runs, record required waiter tools in
the state; the callback always returns `None` (modelled as the second
component). -/
def track_waiter_tools (toolName : String) (st : StateMap) :
    StateMap × Option (List (String × String)) :=
  if toolName ∈ REQUIRED_WAITER_TOOLS then
    (setKey st (waiterKey toolName) true, none)
  else
    (st, none)

/-- `track_captain_tools`: after a tool runs, record captain workflow tools
in the state; the callback always returns `None`. -/
def track_captain_tools (toolName : String) (st : StateMap) :
    StateMap × Option (List (String × String)) :=
  if toolName ∈ CAPTAIN_WORKFLOW_TOOLS then
    (setKey st (captainKey toolName) true, none)
  else
    (st, none)

/-- The event-scan loop of `enforce_waiter_prerequisites` (lines 59–64):
walks the session events and, for every event calling a required tool, marks
the tool in the `tools_called` dict (first component) and in the session
state (second component). -/
def waiterEventLoop : List Event → StateMap → StateMap → StateMap × StateMap
  | [], tc, st => (tc, st)
  | e :: rest, tc, st =>
    match e.function_call with
    | some name =>
      if name ∈ REQUIRED_WAITER_TOOLS then
        waiterEventLoop rest (setKey tc name true) (setKey st (waiterKey name) true)
      else
        waiterEventLoop rest tc st
    | none => waiterEventLoop rest tc st

/-- Whether the pending request already contains at least one tool
invocation (lines 70–77 / 168–174). -/
def hasToolCalls (contents : List Content) : Bool :=
  contents.any (fun c => c.parts.any (fun p => p.function_call.isSome))

/-- The instruction text built for missing waiter tools (lines 91–99). -/
def waiterInstructionText (missing : List String) : String :=
  "CRITICAL: Before greeting or asking the customer anything, you MUST first call these tools:\n"
    ++ String.join (missing.map (fun t => "- " ++ t ++ "\n"))
    ++ "\nDo NOT greet the customer or ask any questions until you have called ALL of these tools. "
    ++ "Call them now automatically without asking the customer."

/-- `enforce_waiter_prerequisites` (lines 34–109): the unordered gate. -/
def enforce_waiter_prerequisites (agentName : String) (st : StateMap)
    (events : List Event) (contents : List Content) : StateMap × List Content :=
  if agentName ≠ "waiter_agent" then (st, contents) else
  let tc0 : StateMap := fun t => st (waiterKey t)
  let r := waiterEventLoop events tc0 st
  let tools_called := r.1
  let st' := r.2
  if REQUIRED_WAITER_TOOLS.all (fun t => tools_called t) then (st', contents) else
  if hasToolCalls contents then (st', contents) else
  let missing := REQUIRED_WAITER_TOOLS.filter (fun t => !(tools_called t))
  (st', instructionContent (waiterInstructionText missing) :: contents)

/-- The per-tool check of `enforce_captain_workflow` (lines 142–154): one
iteration reads the state flag, scans the events (with `break` on the first
match) and reconciles the state. -/
def captainToolLoop (events : List Event) : List String → StateMap → StateMap × StateMap
  | [], st => (fun _ => false, st)
  | t :: rest, st =>
    let found := events.any (eventCompletes t)
    let called := st (captainKey t) || found
    let st1 := if found then setKey st (captainKey t) true else st
    let r := captainToolLoop events rest st1
    (setKey r.1 t called, r.2)

/-- The `last_completed_index` scan (lines 156–162): walk the flags in
order, remember the last index seen true, stop at the first false. -/
def lastCompletedIdx : List Bool → Int → Int → Int
  | [], _, last => last
  | b :: rest, i, last => if b then lastCompletedIdx rest (i + 1) i else last

/-- The customer-id extraction of the `get_reservations` branch (lines
190–200): find the last event calling `get_customer` and read the `id`
field of the response attached to that event, if any. -/
def extractCustomerId (events : List Event) : Option String :=
  match events.reverse.find? (eventCompletes "get_customer") with
  | none => none
  | some e =>
    match e.function_response with
    | some resp =>
      match resp.find? (fun p => p.1 == "id") with
      | some p => some p.2
      | none => none
    | none => none

/-- The `get_reservations` instruction embedding a concrete customer id
(lines 203–207). -/
def captainReservationsIdText (cid : String) : String :=
  "CRITICAL: You MUST immediately call `get_reservations` with customer_id=\x27"
    ++ cid
    ++ "\x27. Do NOT ask the customer if they have a reservation - check automatically. "
    ++ "Call the tool now."

/-- The degraded `get_reservations` instruction used when no customer id
could be extracted (lines 209–213). -/
def captainReservationsDegradedText : String :=
  "CRITICAL: You MUST immediately call `get_reservations` with the customer_id from the previous get_customer call. "
    ++ "Do NOT ask the customer if they have a reservation - check automatically. "
    ++ "Call the tool now."

/-- The instruction text of the `get_reservations` branch (lines 188–213):
Python `if customer_id:` is truthiness, so an absent id and an empty-string
id both degrade. -/
def reservationText (events : List Event) : String :=
  match extractCustomerId events with
  | some cid => if cid == "" then captainReservationsDegradedText
                else captainReservationsIdText cid
  | none => captainReservationsDegradedText

/-- The `check_table_availability` instruction (lines 215–219). -/
def checkTableText : String :=
  "CRITICAL: You MUST immediately call `check_table_availability` to find available tables. "
    ++ "Do NOT ask the customer - check automatically. Call the tool now."

/-- The `assign_table` instruction (lines 221–226). -/
def assignTableText : String :=
  "CRITICAL: You MUST immediately call `assign_table` to seat the customer. "
    ++ "Use one of the available tables from the previous check_table_availability result. "
    ++ "Call the tool now."

/-- The `transfer_to_agent` instruction (lines 228–232). -/
def transferText : String :=
  "CRITICAL: You MUST immediately call `transfer_to_agent` with agent_name=\x27waiter_agent\x27. "
    ++ "Include the customer_id and table_id in your message. Call the function now."

/-- `enforce_captain_workflow` (lines 125–247): the sequential gate. -/
def enforce_captain_workflow (agentName : String) (st : StateMap)
    (events : List Event) (contents : List Content) : StateMap × List Content :=
  if agentName ≠ "captain_agent" then (st, contents) else
  let r := captainToolLoop events CAPTAIN_WORKFLOW_TOOLS st
  let tools_called := r.1
  let st' := r.2
  let last_completed_index := lastCompletedIdx (CAPTAIN_WORKFLOW_TOOLS.map (fun t => tools_called t)) 0 (-1)
  if last_completed_index = (CAPTAIN_WORKFLOW_TOOLS.length : Int) - 1 then (st', contents) else
  if hasToolCalls contents then (st', contents) else
  let next_tool_index := last_completed_index + 1
  if next_tool_index ≥ (CAPTAIN_WORKFLOW_TOOLS.length : Int) then (st', contents) else
  match CAPTAIN_WORKFLOW_TOOLS.get? next_tool_index.toNat with
  | none => (st', contents)
  | some next_tool =>
    if next_tool = "get_reservations" then
      (st', instructionContent (reservationText events) :: contents)
    else if next_tool = "check_table_availability" then
      (st', instructionContent checkTableText :: contents)
    else if next_tool = "assign_table" then
      (st', instructionContent assignTableText :: contents)
    else if next_tool = "transfer_to_agent" then
      (st', instructionContent transferText :: contents)
    else (st', contents)

/-- A step counts as observed for the waiter gate when its state flag is set
or an event of the log calls it. -/
def waiterCalled (st : StateMap) (events : List Event) (t : String) : Bool :=
  st (waiterKey t) || events.any (eventCompletes t)

/-- A step counts as observed for the captain gate when its state flag is
set or an event of the log calls it. -/
def captainCalled (st : StateMap) (events : List Event) (t : String) : Bool :=
  st (captainKey t) || events.any (eventCompletes t)

/-- Substring test used to state that a directive embeds a literal. -/
def containsStr (hay needle : String) : Bool :=
  hay.data.tails.any (fun t => needle.data.isPrefixOf t)

/-- Whether an event writes the waiter state key `k` during the waiter
gate's event scan. -/
def waiterKeyHit (k : String) (e : Event) : Bool :=
  match e.function_call with
  | some n => decide (n ∈ REQUIRED_WAITER_TOOLS) && (k == waiterKey n)
  | none => false

lemma waiterEventLoop_fst (evs : List Event) : ∀ (tc st : StateMap) (t : String),
    (waiterEventLoop evs tc st).1 t
      = (tc t || (decide (t ∈ REQUIRED_WAITER_TOOLS) && evs.any (eventCompletes t))) := by
  induction evs with
  | nil => intro tc st t; simp [waiterEventLoop]
  | cons e rest ih =>
    intro tc st t
    rcases he : e.function_call with _ | name
    · simp only [waiterEventLoop, he, List.any_cons]
      rw [ih]
      simp [eventCompletes, he]
    · by_cases hm : name ∈ REQUIRED_WAITER_TOOLS
      · simp only [waiterEventLoop, he, hm, if_true, List.any_cons]
        rw [ih]
        by_cases ht : t = name
        · subst ht
          simp [setKey, eventCompletes, he, hm]
        · have hb : (name == t) = false := by
            rw [beq_eq_false_iff_ne]; exact fun h => ht h.symm
          simp [setKey, ht, eventCompletes, he, hb]
      · simp only [waiterEventLoop, he, hm, if_false, List.any_cons]
        rw [ih]
        by_cases ht : t = name
        · subst ht
          simp [eventCompletes, he, hm]
        · have hb : (name == t) = false := by
            rw [beq_eq_false_iff_ne]; exact fun h => ht h.symm
          simp [eventCompletes, he, hb]

lemma waiterEventLoop_snd (evs : List Event) : ∀ (tc st : StateMap) (k : String),
    (waiterEventLoop evs tc st).2 k = (st k || evs.any (waiterKeyHit k)) := by
  induction evs with
  | nil => intro tc st k; simp [waiterEventLoop]
  | cons e rest ih =>
    intro tc st k
    rcases he : e.function_call with _ | name
    · simp only [waiterEventLoop, he, List.any_cons]
      rw [ih]
      simp [waiterKeyHit, he]
    · by_cases hm : name ∈ REQUIRED_WAITER_TOOLS
      · simp only [waiterEventLoop, he, hm, if_true, List.any_cons]
        rw [ih]
        by_cases hk : k = waiterKey name
        · subst hk
          simp [setKey, waiterKeyHit, he, hm]
        · have hb : (k == waiterKey name) = false := by
            rw [beq_eq_false_iff_ne]; exact hk
          simp [setKey, hk, waiterKeyHit, he, hb]
      · simp only [waiterEventLoop, he, hm, if_false, List.any_cons]
        rw [ih]
        simp [waiterKeyHit, he, hm]

lemma captainToolLoop_snd (evs : List Event) : ∀ (l : List String) (st : StateMap) (k : String),
    (captainToolLoop evs l st).2 k
      = (st k || l.any (fun t => (k == captainKey t) && evs.any (eventCompletes t))) := by
  intro l
  induction l with
  | nil => intro st k; simp [captainToolLoop]
  | cons a rest ih =>
    intro st k
    simp only [captainToolLoop, List.any_cons]
    rw [ih]
    cases hf : evs.any (eventCompletes a) with
    | false => simp [hf]
    | true =>
      by_cases hk : k = captainKey a
      · subst hk
        simp [setKey, hf]
      · have hb : (k == captainKey a) = false := by
          rw [beq_eq_false_iff_ne]; exact hk
        simp [setKey, hk, hb, hf]

lemma captainToolLoop_fst (evs : List Event) : ∀ (l : List String) (st : StateMap) (t : String),
    l.Pairwise (fun a b => a ≠ b ∧ captainKey a ≠ captainKey b) → t ∈ l →
    (captainToolLoop evs l st).1 t
      = (st (captainKey t) || evs.any (eventCompletes t)) := by
  intro l
  induction l with
  | nil => intro st t _ ht; cases ht
  | cons a rest ih =>
    intro st t hpw ht
    rw [List.pairwise_cons] at hpw
    obtain ⟨ha, hrest⟩ := hpw
    simp only [captainToolLoop]
    by_cases hta : t = a
    · subst hta
      simp [setKey]
    · have htr : t ∈ rest := by
        rcases List.mem_cons.mp ht with h | h
        · exact absurd h hta
        · exact h
      have hne := ha t htr
      have hkey : captainKey t ≠ captainKey a := fun h => hne.2 h.symm
      rw [show (setKey (captainToolLoop evs rest
            (if evs.any (eventCompletes a) then setKey st (captainKey a) true else st)).1 a
            (st (captainKey a) || evs.any (eventCompletes a))) t
          = (captainToolLoop evs rest
            (if evs.any (eventCompletes a) then setKey st (captainKey a) true else st)).1 t
          from by simp [setKey, hta]]
      rw [ih _ t hrest htr]
      cases hf : evs.any (eventCompletes a) with
      | false => simp [hf]
      | true => simp [hf, setKey, hkey]

lemma captain_map_tc (st : StateMap) (evs : List Event) :
    CAPTAIN_WORKFLOW_TOOLS.map (captainToolLoop evs CAPTAIN_WORKFLOW_TOOLS st).1
      = [captainCalled st evs "get_customer", captainCalled st evs "get_reservations",
         captainCalled st evs "check_table_availability", captainCalled st evs "assign_table",
         captainCalled st evs "transfer_to_agent"] := by
  have hpw : CAPTAIN_WORKFLOW_TOOLS.Pairwise (fun a b => a ≠ b ∧ captainKey a ≠ captainKey b) := by
    decide
  have h0 := captainToolLoop_fst evs CAPTAIN_WORKFLOW_TOOLS st "get_customer" hpw (by decide)
  have h1 := captainToolLoop_fst evs CAPTAIN_WORKFLOW_TOOLS st "get_reservations" hpw (by decide)
  have h2 := captainToolLoop_fst evs CAPTAIN_WORKFLOW_TOOLS st "check_table_availability" hpw (by decide)
  have h3 := captainToolLoop_fst evs CAPTAIN_WORKFLOW_TOOLS st "assign_table" hpw (by decide)
  have h4 := captainToolLoop_fst evs CAPTAIN_WORKFLOW_TOOLS st "transfer_to_agent" hpw (by decide)
  set f := (captainToolLoop evs CAPTAIN_WORKFLOW_TOOLS st).1 with hf
  have hmap : CAPTAIN_WORKFLOW_TOOLS.map f
      = [f "get_customer", f "get_reservations", f "check_table_availability",
         f "assign_table", f "transfer_to_agent"] := rfl
  rw [hmap, h0, h1, h2, h3, h4]
  rfl

/-- The decision the sequential gate takes as a function of the five
reconciled completion flags: pass when the strict prefix covers the whole
list or a tool call is pending or even the first step is incomplete,
otherwise prepend the directive of the first incomplete step. -/
def captainVerdict (f0 f1 f2 f3 f4 : Bool) (events : List Event)
    (contents : List Content) : List Content :=
  if f0 && f1 && f2 && f3 && f4 then contents
  else if hasToolCalls contents then contents
  else if !f0 then contents
  else if !f1 then instructionContent (reservationText events) :: contents
  else if !f2 then instructionContent checkTableText :: contents
  else if !f3 then instructionContent assignTableText :: contents
  else instructionContent transferText :: contents

lemma captain_gate_eq (st : StateMap) (evs : List Event) (contents : List Content) :
    enforce_captain_workflow "captain_agent" st evs contents
      = ((captainToolLoop evs CAPTAIN_WORKFLOW_TOOLS st).2,
         captainVerdict (captainCalled st evs "get_customer")
           (captainCalled st evs "get_reservations")
           (captainCalled st evs "check_table_availability")
           (captainCalled st evs "assign_table")
           (captainCalled st evs "transfer_to_agent") evs contents) := by
  simp only [enforce_captain_workflow]
  rw [if_neg (by simp)]
  rw [captain_map_tc]
  generalize captainCalled st evs "get_customer" = f0
  generalize captainCalled st evs "get_reservations" = f1
  generalize captainCalled st evs "check_table_availability" = f2
  generalize captainCalled st evs "assign_table" = f3
  generalize captainCalled st evs "transfer_to_agent" = f4
  cases f0 <;> cases f1 <;> cases f2 <;> cases f3 <;> cases f4 <;>
    cases h : hasToolCalls contents <;>
      simp [captainVerdict, lastCompletedIdx, CAPTAIN_WORKFLOW_TOOLS, h]

lemma waiter_tc_mem (st : StateMap) (evs : List Event) (t : String)
    (ht : t ∈ REQUIRED_WAITER_TOOLS) :
    (waiterEventLoop evs (fun t' => st (waiterKey t')) st).1 t = waiterCalled st evs t := by
  rw [waiterEventLoop_fst]
  simp [waiterCalled, ht]

/-- The `missing_tools` list of the waiter gate as a function of the two
completion flags. -/
def waiterMissing (c0 c1 : Bool) : List String :=
  (if c0 then [] else ["get_customer_orders"]) ++ (if c1 then [] else ["get_menu"])

/-- The decision the unordered gate takes as a function of the two
reconciled completion flags. -/
def waiterVerdict (c0 c1 : Bool) (contents : List Content) : List Content :=
  if c0 && c1 then contents
  else if hasToolCalls contents then contents
  else instructionContent (waiterInstructionText (waiterMissing c0 c1)) :: contents

lemma waiter_gate_eq (st : StateMap) (evs : List Event) (contents : List Content) :
    enforce_waiter_prerequisites "waiter_agent" st evs contents
      = ((waiterEventLoop evs (fun t => st (waiterKey t)) st).2,
         waiterVerdict (waiterCalled st evs "get_customer_orders")
           (waiterCalled st evs "get_menu") contents) := by
  simp only [enforce_waiter_prerequisites]
  rw [if_neg (by simp)]
  have e0 := waiter_tc_mem st evs "get_customer_orders" (by decide)
  have e1 := waiter_tc_mem st evs "get_menu" (by decide)
  set f := (waiterEventLoop evs (fun t => st (waiterKey t)) st).1 with hf
  have hall : REQUIRED_WAITER_TOOLS.all f = (f "get_customer_orders" && (f "get_menu" && true)) := rfl
  have hfil : REQUIRED_WAITER_TOOLS.filter (fun t => !(f t))
      = ((if !(f "get_customer_orders") then ["get_customer_orders"] else [])
          ++ (if !(f "get_menu") then ["get_menu"] else [])) := by
    cases hb0 : f "get_customer_orders" <;> cases hb1 : f "get_menu" <;>
      simp [REQUIRED_WAITER_TOOLS, List.filter_cons, hb0, hb1]
  rw [hall, hfil, e0, e1]
  generalize waiterCalled st evs "get_customer_orders" = c0
  generalize waiterCalled st evs "get_menu" = c1
  cases c0 <;> cases c1 <;> cases h : hasToolCalls contents <;>
    simp [waiterVerdict, waiterMissing, h]

lemma any_congr_mem {α : Type} : ∀ (l : List α) (f g : α → Bool),
    (∀ a ∈ l, f a = g a) → l.any f = l.any g := by
  intro l f g h
  induction l with
  | nil => rfl
  | cons a rest ih =>
    simp only [List.any_cons]
    rw [h a (by simp), ih (fun b hb => h b (by simp [hb]))]

lemma any_beq_and : ∀ (l : List String) (t : String) (A : String → Bool), t ∈ l →
    l.any (fun u => (t == u) && A u) = A t := by
  intro l
  induction l with
  | nil => intro t A ht; cases ht
  | cons a rest ih =>
    intro t A ht
    rcases List.mem_cons.mp ht with rfl | hr
    · by_cases hA : A t = true
      · simp [List.any_cons, hA]
      · have hfalse : rest.any (fun u => (t == u) && A u) = false := by
          rw [List.any_eq_false]
          intro x hx hcontra
          rw [Bool.and_eq_true, beq_iff_eq] at hcontra
          obtain ⟨rfl, hAx⟩ := hcontra
          exact hA hAx
        simp [List.any_cons, hfalse, hA, Bool.eq_false_iff.mpr hA]
    · rw [List.any_cons, ih t A hr]
      by_cases hta : t = a
      · subst hta
        cases hA : A t <;> simp [hA]
      · rw [beq_eq_false_iff_ne.mpr hta]
        simp

lemma captain_gate_state (st : StateMap) (evs : List Event) (contents : List Content)
    (t : String) (ht : t ∈ CAPTAIN_WORKFLOW_TOOLS) :
    (enforce_captain_workflow "captain_agent" st evs contents).1 (captainKey t)
      = captainCalled st evs t := by
  rw [captain_gate_eq]
  show (captainToolLoop evs CAPTAIN_WORKFLOW_TOOLS st).2 (captainKey t) = _
  rw [captainToolLoop_snd]
  have keys : ∀ a ∈ CAPTAIN_WORKFLOW_TOOLS, ∀ b ∈ CAPTAIN_WORKFLOW_TOOLS,
      (captainKey a == captainKey b) = (a == b) := by decide
  have hcong : CAPTAIN_WORKFLOW_TOOLS.any
        (fun u => (captainKey t == captainKey u) && evs.any (eventCompletes u))
      = CAPTAIN_WORKFLOW_TOOLS.any (fun u => (t == u) && evs.any (eventCompletes u)) := by
    apply any_congr_mem
    intro a ha
    rw [keys t ht a ha]
  rw [hcong, any_beq_and CAPTAIN_WORKFLOW_TOOLS t _ ht]
  rfl

lemma waiter_gate_state (st : StateMap) (evs : List Event) (contents : List Content)
    (t : String) (ht : t ∈ REQUIRED_WAITER_TOOLS) :
    (enforce_waiter_prerequisites "waiter_agent" st evs contents).1 (waiterKey t)
      = waiterCalled st evs t := by
  rw [waiter_gate_eq]
  show (waiterEventLoop evs (fun u => st (waiterKey u)) st).2 (waiterKey t) = _
  rw [waiterEventLoop_snd]
  have hpt : ∀ e, waiterKeyHit (waiterKey t) e = eventCompletes t e := by
    intro e
    rcases he : e.function_call with _ | n
    · simp [waiterKeyHit, eventCompletes, he]
    · simp only [waiterKeyHit, eventCompletes, he]
      by_cases hn : n ∈ REQUIRED_WAITER_TOOLS
      · have keys : ∀ a ∈ REQUIRED_WAITER_TOOLS, ∀ b ∈ REQUIRED_WAITER_TOOLS,
            (waiterKey a == waiterKey b) = (a == b) := by decide
        rw [show decide (n ∈ REQUIRED_WAITER_TOOLS) = true by simp [hn], Bool.true_and]
        rw [keys t ht n hn]
        by_cases htn : t = n
        · subst htn; rfl
        · rw [beq_eq_false_iff_ne.mpr htn, beq_eq_false_iff_ne.mpr (fun h => htn h.symm)]
      · have hnt : n ≠ t := fun h => hn (h ▸ ht)
        simp [hn, beq_eq_false_iff_ne.mpr hnt]
  rw [any_congr_mem evs _ _ (fun e _ => hpt e)]
  rfl

lemma captain_pass_of_all (st : StateMap) (evs : List Event) (contents : List Content)
    (h : ∀ t ∈ CAPTAIN_WORKFLOW_TOOLS, captainCalled st evs t = true) :
    (enforce_captain_workflow "captain_agent" st evs contents).2 = contents := by
  rw [captain_gate_eq]
  show captainVerdict _ _ _ _ _ _ _ = contents
  rw [h "get_customer" (by decide), h "get_reservations" (by decide),
      h "check_table_availability" (by decide), h "assign_table" (by decide),
      h "transfer_to_agent" (by decide)]
  simp [captainVerdict]

lemma captain_gap1_directive (st : StateMap) (evs : List Event) (contents : List Content)
    (hnt : hasToolCalls contents = false)
    (h0 : captainCalled st evs "get_customer" = true)
    (h1 : captainCalled st evs "get_reservations" = false) :
    (enforce_captain_workflow "captain_agent" st evs contents).2
      = instructionContent (reservationText evs) :: contents := by
  rw [captain_gate_eq]
  show captainVerdict _ _ _ _ _ _ _ = _
  rw [h0, h1]
  simp [captainVerdict, hnt]

set_option maxRecDepth 40000

/-- A session state in which only `get_customer` and the terminal step
`transfer_to_agent` are recorded complete: the middle steps were skipped. -/
def stTerminalOnly : StateMap :=
  setKey (setKey (fun _ => false) (captainKey "get_customer") true)
    (captainKey "transfer_to_agent") true

/-- C1 counterexample: with the terminal step `transfer_to_agent` observed
true but `get_reservations` incomplete, and no tool invocation pending, the
sequential gate does NOT pass: it injects a directive (the output contents
are not the unchanged empty input), contradicting the claimed terminal
short-circuit. -/
theorem C1_counterexample :
    (enforce_captain_workflow "captain_agent" stTerminalOnly ([] : List Event)
        ([] : List Content)).2 ≠ ([] : List Content) := by
  decide

/-- C1 (amended): the sequential gate passes once every step of
`CAPTAIN_WORKFLOW_TOOLS` is observed true (equivalently, the strict-prefix
scan covers the whole list); the terminal step being true does not by
itself short-circuit the gate when an earlier-ordered step is incomplete. -/
theorem C1_all_steps_pass (st : StateMap) (evs : List Event) (contents : List Content)
    (h : ∀ t ∈ CAPTAIN_WORKFLOW_TOOLS, captainCalled st evs t = true) :
    (enforce_captain_workflow "captain_agent" st evs contents).2 = contents :=
  captain_pass_of_all st evs contents h

/-- C1 witness: with every workflow step recorded true the gate passes. -/
theorem C1_witness :
    (enforce_captain_workflow "captain_agent" (fun _ => true) ([] : List Event)
        ([] : List Content)).2 = ([] : List Content) :=
  C1_all_steps_pass (fun _ => true) [] [] (by decide)

/-- C2 counterexample: with no step complete, the terminal step incomplete
and no tool invocation pending, the gate injects nothing at all (the
contents come back unchanged) — there is no `elif` branch for
`get_customer`, so the claimed directive naming step[0] is never built. -/
theorem C2_counterexample :
    (enforce_captain_workflow "captain_agent" (fun _ => false) ([] : List Event)
        ([] : List Content)).2 = ([] : List Content) := by
  decide

/-- C2 (amended): with no tool invocation pending, the sequential gate
injects a directive naming exactly the step at the first index whose state
is false scanning from the start, provided that index is at least 1 (a
later true step never unblocks an earlier gap); when even the first step
`get_customer` is incomplete the gate passes without injecting anything. -/
theorem C2_strict_prefix_directive (st : StateMap) (evs : List Event)
    (contents : List Content) (hnt : hasToolCalls contents = false) :
    (captainCalled st evs "get_customer" = false →
        (enforce_captain_workflow "captain_agent" st evs contents).2 = contents)
  ∧ (captainCalled st evs "get_customer" = true →
     captainCalled st evs "get_reservations" = false →
        (enforce_captain_workflow "captain_agent" st evs contents).2
          = instructionContent (reservationText evs) :: contents)
  ∧ (captainCalled st evs "get_customer" = true →
     captainCalled st evs "get_reservations" = true →
     captainCalled st evs "check_table_availability" = false →
        (enforce_captain_workflow "captain_agent" st evs contents).2
          = instructionContent checkTableText :: contents)
  ∧ (captainCalled st evs "get_customer" = true →
     captainCalled st evs "get_reservations" = true →
     captainCalled st evs "check_table_availability" = true →
     captainCalled st evs "assign_table" = false →
        (enforce_captain_workflow "captain_agent" st evs contents).2
          = instructionContent assignTableText :: contents)
  ∧ (captainCalled st evs "get_customer" = true →
     captainCalled st evs "get_reservations" = true →
     captainCalled st evs "check_table_availability" = true →
     captainCalled st evs "assign_table" = true →
     captainCalled st evs "transfer_to_agent" = false →
        (enforce_captain_workflow "captain_agent" st evs contents).2
          = instructionContent transferText :: contents) := by
  refine ⟨?_, ?_, ?_, ?_, ?_⟩
  · intro h0
    rw [captain_gate_eq]
    show captainVerdict _ _ _ _ _ _ _ = contents
    rw [h0]
    simp [captainVerdict, hnt]
  · intro h0 h1
    exact captain_gap1_directive st evs contents hnt h0 h1
  · intro h0 h1 h2
    rw [captain_gate_eq]
    show captainVerdict _ _ _ _ _ _ _ = _
    rw [h0, h1, h2]
    simp [captainVerdict, hnt]
  · intro h0 h1 h2 h3
    rw [captain_gate_eq]
    show captainVerdict _ _ _ _ _ _ _ = _
    rw [h0, h1, h2, h3]
    simp [captainVerdict, hnt]
  · intro h0 h1 h2 h3 h4
    rw [captain_gate_eq]
    show captainVerdict _ _ _ _ _ _ _ = _
    rw [h0, h1, h2, h3, h4]
    simp [captainVerdict, hnt]

/-- C2 witness: with only `get_customer` complete, the gate injects the
`get_reservations` directive at the head of the contents. -/
theorem C2_witness :
    (enforce_captain_workflow "captain_agent"
        (setKey (fun _ => false) (captainKey "get_customer") true)
        ([] : List Event) ([] : List Content)).2
      = instructionContent (reservationText ([] : List Event)) :: ([] : List Content) :=
  (C2_strict_prefix_directive _ _ _ (by decide)).2.1 (by decide) (by decide)

/-- C3: on every gate evaluation the reconciliation replay makes a registered
step's state flag true exactly when it was already true or the step's name
appears in the event log as a tool invocation; in particular a gate
evaluated with an initially empty state map against a log containing all
required invocations passes. -/
theorem C3_reconciliation_replay (st : StateMap) (evs : List Event)
    (contents : List Content) :
    (∀ t ∈ REQUIRED_WAITER_TOOLS,
        (enforce_waiter_prerequisites "waiter_agent" st evs contents).1 (waiterKey t)
          = (st (waiterKey t) || evs.any (eventCompletes t)))
  ∧ (∀ t ∈ CAPTAIN_WORKFLOW_TOOLS,
        (enforce_captain_workflow "captain_agent" st evs contents).1 (captainKey t)
          = (st (captainKey t) || evs.any (eventCompletes t)))
  ∧ ((∀ t ∈ REQUIRED_WAITER_TOOLS, evs.any (eventCompletes t) = true) →
        (enforce_waiter_prerequisites "waiter_agent" (fun _ => false) evs contents).2
          = contents)
  ∧ ((∀ t ∈ CAPTAIN_WORKFLOW_TOOLS, evs.any (eventCompletes t) = true) →
        (enforce_captain_workflow "captain_agent" (fun _ => false) evs contents).2
          = contents) := by
  refine ⟨?_, ?_, ?_, ?_⟩
  · intro t ht
    exact waiter_gate_state st evs contents t ht
  · intro t ht
    exact captain_gate_state st evs contents t ht
  · intro h
    rw [waiter_gate_eq]
    show waiterVerdict _ _ _ = contents
    have h0 : waiterCalled (fun _ => false) evs "get_customer_orders" = true := by
      simp [waiterCalled, h "get_customer_orders" (by decide)]
    have h1 : waiterCalled (fun _ => false) evs "get_menu" = true := by
      simp [waiterCalled, h "get_menu" (by decide)]
    rw [h0, h1]
    simp [waiterVerdict]
  · intro h
    apply captain_pass_of_all
    intro t ht
    simp [captainCalled, h t ht]

/-- C3 witness: with an empty state map and a log recording every captain
workflow tool, the sequential gate passes. -/
theorem C3_witness :
    (enforce_captain_workflow "captain_agent" (fun _ => false)
        [⟨some "get_customer", none⟩, ⟨some "get_reservations", none⟩,
         ⟨some "check_table_availability", none⟩, ⟨some "assign_table", none⟩,
         ⟨some "transfer_to_agent", none⟩] ([] : List Content)).2 = ([] : List Content) :=
  (C3_reconciliation_replay (fun _ => false) _ []).2.2.2 (by decide)

/-- C4: with no tool invocation pending, the unordered waiter gate passes
exactly when both required tools are observed complete (a property of the
completion state only, hence independent of completion order); otherwise it
prepends a single directive whose missing-tools list is exactly
`Required` minus the completed steps. -/
theorem C4_unordered_gate (st : StateMap) (evs : List Event) (contents : List Content)
    (hnt : hasToolCalls contents = false) :
    ((enforce_waiter_prerequisites "waiter_agent" st evs contents).2 = contents
        ↔ (∀ t ∈ REQUIRED_WAITER_TOOLS, waiterCalled st evs t = true))
  ∧ ((¬ ∀ t ∈ REQUIRED_WAITER_TOOLS, waiterCalled st evs t = true) →
        (enforce_waiter_prerequisites "waiter_agent" st evs contents).2
          = instructionContent (waiterInstructionText
              (REQUIRED_WAITER_TOOLS.filter (fun t => !(waiterCalled st evs t))))
            :: contents) := by
  rw [waiter_gate_eq]
  have hfil : REQUIRED_WAITER_TOOLS.filter (fun t => !(waiterCalled st evs t))
      = waiterMissing (waiterCalled st evs "get_customer_orders")
          (waiterCalled st evs "get_menu") := by
    cases hc0 : waiterCalled st evs "get_customer_orders" <;>
      cases hc1 : waiterCalled st evs "get_menu" <;>
        simp [REQUIRED_WAITER_TOOLS, List.filter_cons, hc0, hc1, waiterMissing]
  rw [hfil]
  have hball : (∀ t ∈ REQUIRED_WAITER_TOOLS, waiterCalled st evs t = true)
      ↔ (waiterCalled st evs "get_customer_orders" = true
          ∧ waiterCalled st evs "get_menu" = true) := by
    simp [REQUIRED_WAITER_TOOLS]
  rw [hball]
  generalize waiterCalled st evs "get_customer_orders" = c0
  generalize waiterCalled st evs "get_menu" = c1
  cases c0 <;> cases c1 <;> simp [waiterVerdict, waiterMissing, hnt]

/-- C4 witness: with nothing complete, the waiter gate prepends the
directive listing both required tools. -/
theorem C4_witness :
    (enforce_waiter_prerequisites "waiter_agent" (fun _ => false) ([] : List Event)
        ([] : List Content)).2
      = instructionContent (waiterInstructionText
          (REQUIRED_WAITER_TOOLS.filter
            (fun t => !(waiterCalled (fun _ => false) ([] : List Event) t))))
        :: ([] : List Content) :=
  (C4_unordered_gate (fun _ => false) [] [] (by decide)).2 (by decide)

/-- C5: if the pending request already contains a tool invocation, both
gates leave the contents unchanged (pass), for every agent identity, state
map and event log — even with unmet prerequisites. -/
theorem C5_self_initiated_bypass (agent : String) (st : StateMap) (evs : List Event)
    (contents : List Content) (h : hasToolCalls contents = true) :
    (enforce_waiter_prerequisites agent st evs contents).2 = contents
  ∧ (enforce_captain_workflow agent st evs contents).2 = contents := by
  constructor
  · by_cases ha : agent = "waiter_agent"
    · subst ha
      rw [waiter_gate_eq]
      show waiterVerdict _ _ contents = contents
      simp only [waiterVerdict, h]
      split <;> simp
    · simp [enforce_waiter_prerequisites, ha]
  · by_cases ha : agent = "captain_agent"
    · subst ha
      rw [captain_gate_eq]
      show captainVerdict _ _ _ _ _ _ contents = contents
      simp only [captainVerdict, h]
      split <;> simp
    · simp [enforce_captain_workflow, ha]

/-- C5 witness: a pending function call bypasses the waiter gate even with
nothing complete. -/
theorem C5_witness :
    (enforce_waiter_prerequisites "waiter_agent" (fun _ => false) ([] : List Event)
        [⟨"model", [⟨some "get_menu", none⟩]⟩]).2
      = [(⟨"model", [⟨some "get_menu", none⟩]⟩ : Content)] :=
  (C5_self_initiated_bypass "waiter_agent" (fun _ => false) []
    [⟨"model", [⟨some "get_menu", none⟩]⟩] (by decide)).1

lemma setKey_mono (st : StateMap) (k k' : String) (hk : st k = true) :
    setKey st k' true k = true := by
  by_cases h : k = k' <;> simp [setKey, h, hk]

lemma setKey_idem (st : StateMap) (k : String) :
    setKey (setKey st k true) k true = setKey st k true := by
  funext x
  by_cases hx : x = k <;> simp [setKey, hx]

/-- C6: step-completion state is monotonic (no tracker call and no gate
evaluation turns a true flag false) and the trackers are idempotent (a
second invocation for the same tool leaves the state exactly as after the
first). -/
theorem C6_monotonic_idempotent :
    (∀ (tn : String) (st : StateMap) (k : String), st k = true →
        ((track_waiter_tools tn st).1 k = true ∧ (track_captain_tools tn st).1 k = true))
  ∧ (∀ (tn : String) (st : StateMap),
        track_waiter_tools tn (track_waiter_tools tn st).1 = track_waiter_tools tn st
      ∧ track_captain_tools tn (track_captain_tools tn st).1 = track_captain_tools tn st)
  ∧ (∀ (agent : String) (st : StateMap) (evs : List Event) (contents : List Content)
        (k : String), st k = true →
        ((enforce_waiter_prerequisites agent st evs contents).1 k = true
       ∧ (enforce_captain_workflow agent st evs contents).1 k = true)) := by
  refine ⟨?_, ?_, ?_⟩
  · intro tn st k hk
    constructor
    · by_cases hm : tn ∈ REQUIRED_WAITER_TOOLS
      · simp only [track_waiter_tools, hm, if_true]
        exact setKey_mono st k _ hk
      · simp [track_waiter_tools, hm, hk]
    · by_cases hm : tn ∈ CAPTAIN_WORKFLOW_TOOLS
      · simp only [track_captain_tools, hm, if_true]
        exact setKey_mono st k _ hk
      · simp [track_captain_tools, hm, hk]
  · intro tn st
    constructor
    · by_cases hm : tn ∈ REQUIRED_WAITER_TOOLS <;>
        simp [track_waiter_tools, hm, setKey_idem]
    · by_cases hm : tn ∈ CAPTAIN_WORKFLOW_TOOLS <;>
        simp [track_captain_tools, hm, setKey_idem]
  · intro agent st evs contents k hk
    constructor
    · by_cases ha : agent = "waiter_agent"
      · subst ha
        rw [waiter_gate_eq]
        show (waiterEventLoop evs (fun t => st (waiterKey t)) st).2 k = true
        rw [waiterEventLoop_snd]
        simp [hk]
      · simp [enforce_waiter_prerequisites, ha, hk]
    · by_cases ha : agent = "captain_agent"
      · subst ha
        rw [captain_gate_eq]
        show (captainToolLoop evs CAPTAIN_WORKFLOW_TOOLS st).2 k = true
        rw [captainToolLoop_snd]
        simp [hk]
      · simp [enforce_captain_workflow, ha, hk]

/-- C6 witness: a concrete monotonicity instance through the waiter
tracker. -/
theorem C6_witness :
    (track_waiter_tools "get_menu" (fun _ => true)).1 "waiter_get_menu_called" = true :=
  (C6_monotonic_idempotent.1 "get_menu" (fun _ => true) "waiter_get_menu_called" rfl).1

/-- The event log of the C7 counterexample: the first `get_customer` call
event carries the response `{id: "c1"}`, a later `get_customer` call event
carries no response at all. -/
def evsC7 : List Event :=
  [⟨some "get_customer", some [("id", "c1")]⟩, ⟨some "get_customer", none⟩]

/-- C7 counterexample: in `evsC7` the last recorded `get_customer`
ToolResponse is `{id: "c1"}` (attached to the first event), so the claim
predicts a directive embedding the literal "c1"; the code instead stops at
the last `get_customer` call event, finds no response there, and emits the
degraded directive, whose text does not contain "c1" at all. -/
theorem C7_counterexample :
    ((enforce_captain_workflow "captain_agent" (fun _ => false) evsC7
        ([] : List Content)).2 = [instructionContent captainReservationsDegradedText])
  ∧ containsStr captainReservationsDegradedText "c1" = false := by
  exact ⟨by decide, by decide⟩

lemma idText_len (cid : String) : 0 < (captainReservationsIdText cid).length := by
  simp only [captainReservationsIdText, String.length_append]
  have h1 : 0 < ("CRITICAL: You MUST immediately call `get_reservations` with customer_id=\x27" : String).length := by
    decide
  omega

/-- C7 (amended): when the next required step is `get_reservations`, the
gate prepends the reservation directive built by `reservationText`: that
text embeds the extracted id when the LAST `get_customer` call event
carries a response whose `id` field is a non-empty string, and otherwise
(including when an earlier `get_customer` event does carry a usable
response) falls back to the degraded directive that names no literal; the
directive is non-empty in every case and the computation is total (never
raises). -/
theorem C7_extraction (st : StateMap) (evs : List Event) (contents : List Content)
    (hnt : hasToolCalls contents = false)
    (h0 : captainCalled st evs "get_customer" = true)
    (h1 : captainCalled st evs "get_reservations" = false) :
    ((enforce_captain_workflow "captain_agent" st evs contents).2
        = instructionContent (reservationText evs) :: contents)
  ∧ (∀ cid, extractCustomerId evs = some cid → cid ≠ "" →
        reservationText evs = captainReservationsIdText cid)
  ∧ (extractCustomerId evs = none →
        reservationText evs = captainReservationsDegradedText)
  ∧ 0 < (reservationText evs).length
  ∧ containsStr (captainReservationsIdText "c1") "c1" = true
  ∧ containsStr (captainReservationsIdText "c1") "get_reservations" = true := by
  refine ⟨captain_gap1_directive st evs contents hnt h0 h1, ?_, ?_, ?_, by decide, by decide⟩
  · intro cid hcid hne
    simp only [reservationText, hcid]
    rw [if_neg]
    simp [hne]
  · intro hnone
    simp [reservationText, hnone]
  · rcases hm : extractCustomerId evs with _ | cid
    · simp only [reservationText, hm]
      decide
    · simp only [reservationText, hm]
      by_cases hc : (cid == "") = true
      · simp only [hc, if_true]
        decide
      · have hcf : (cid == "") = false := by
          revert hc; cases (cid == "") <;> simp
        simp only [hcf, Bool.false_eq_true, if_false]
        exact idText_len cid

/-- C7 witness: a single `get_customer` event with response `{id: "c1"}`
makes the gate prepend the reservation directive. -/
theorem C7_witness :
    (enforce_captain_workflow "captain_agent" (fun _ => false)
        [⟨some "get_customer", some [("id", "c1")]⟩] ([] : List Content)).2
      = instructionContent
          (reservationText [⟨some "get_customer", some [("id", "c1")]⟩])
        :: ([] : List Content) :=
  (C7_extraction (fun _ => false) [⟨some "get_customer", some [("id", "c1")]⟩] []
    (by decide) (by decide) (by decide)).1

/-- C8: invoked for any agent identity other than the one it is configured
for, a gate is a no-op pass: it returns the state and the request contents
exactly as given. -/
theorem C8_unknown_agent (agent : String) (st : StateMap) (evs : List Event)
    (contents : List Content) :
    (agent ≠ "waiter_agent" →
        enforce_waiter_prerequisites agent st evs contents = (st, contents))
  ∧ (agent ≠ "captain_agent" →
        enforce_captain_workflow agent st evs contents = (st, contents)) := by
  constructor
  · intro h
    simp [enforce_waiter_prerequisites, h]
  · intro h
    simp [enforce_captain_workflow, h]

/-- C8 witness: a gate invoked for `chef_agent` changes nothing. -/
theorem C8_witness :
    enforce_waiter_prerequisites "chef_agent" (fun _ => false) ([] : List Event)
        ([] : List Content)
      = ((fun _ => false : StateMap), ([] : List Content)) :=
  (C8_unknown_agent "chef_agent" (fun _ => false) [] []).1 (by decide)

/-- C9: whenever a gate changes the request it prepends exactly one
synthetic instruction block at position 0, and the state a gate returns is
always exactly the reconciliation-replay state — the injection step itself
writes nothing to the session state. -/
theorem C9_injection_frame (agent : String) (st : StateMap) (evs : List Event)
    (contents : List Content) :
    ((enforce_waiter_prerequisites agent st evs contents).2 = contents
        ∨ ∃ c, (enforce_waiter_prerequisites agent st evs contents).2 = c :: contents)
  ∧ ((enforce_captain_workflow agent st evs contents).2 = contents
        ∨ ∃ c, (enforce_captain_workflow agent st evs contents).2 = c :: contents)
  ∧ ((enforce_waiter_prerequisites agent st evs contents).1
        = if agent = "waiter_agent"
          then (waiterEventLoop evs (fun t => st (waiterKey t)) st).2 else st)
  ∧ ((enforce_captain_workflow agent st evs contents).1
        = if agent = "captain_agent"
          then (captainToolLoop evs CAPTAIN_WORKFLOW_TOOLS st).2 else st) := by
  refine ⟨?_, ?_, ?_, ?_⟩
  · by_cases ha : agent = "waiter_agent"
    · subst ha
      rw [waiter_gate_eq]
      show waiterVerdict _ _ contents = contents ∨ _
      simp only [waiterVerdict]
      split
      · exact Or.inl rfl
      · split
        · exact Or.inl rfl
        · exact Or.inr ⟨_, rfl⟩
    · left
      simp [enforce_waiter_prerequisites, ha]
  · by_cases ha : agent = "captain_agent"
    · subst ha
      rw [captain_gate_eq]
      show captainVerdict _ _ _ _ _ _ contents = contents ∨ _
      simp only [captainVerdict]
      split
      · exact Or.inl rfl
      · split
        · exact Or.inl rfl
        · split
          · exact Or.inl rfl
          · split
            · exact Or.inr ⟨_, rfl⟩
            · split
              · exact Or.inr ⟨_, rfl⟩
              · split
                · exact Or.inr ⟨_, rfl⟩
                · exact Or.inr ⟨_, rfl⟩
    · left
      simp [enforce_captain_workflow, ha]
  · by_cases ha : agent = "waiter_agent"
    · subst ha
      rw [waiter_gate_eq, if_pos rfl]
    · rw [if_neg ha]
      simp [enforce_waiter_prerequisites, ha]
  · by_cases ha : agent = "captain_agent"
    · subst ha
      rw [captain_gate_eq, if_pos rfl]
    · rw [if_neg ha]
      simp [enforce_captain_workflow, ha]

/-- C9 witness: a concrete injection prepends exactly one block. -/
theorem C9_witness :
    (enforce_waiter_prerequisites "waiter_agent" (fun _ => true) ([] : List Event)
        ([] : List Content)).2 = ([] : List Content)
      ∨ ∃ c, (enforce_waiter_prerequisites "waiter_agent" (fun _ => true)
        ([] : List Event) ([] : List Content)).2 = c :: ([] : List Content) :=
  (C9_injection_frame "waiter_agent" (fun _ => true) [] []).1

/-- C10: for a tool outside the configured step set the tracker leaves the
state map completely unchanged, and both tracker callbacks return `None`
for every input. -/
theorem C10_tracker_noop (tn : String) (st : StateMap) :
    (tn ∉ REQUIRED_WAITER_TOOLS → track_waiter_tools tn st = (st, none))
  ∧ (tn ∉ CAPTAIN_WORKFLOW_TOOLS → track_captain_tools tn st = (st, none))
  ∧ (track_waiter_tools tn st).2 = none
  ∧ (track_captain_tools tn st).2 = none := by
  refine ⟨?_, ?_, ?_, ?_⟩
  · intro h
    simp [track_waiter_tools, h]
  · intro h
    simp [track_captain_tools, h]
  · by_cases h : tn ∈ REQUIRED_WAITER_TOOLS <;> simp [track_waiter_tools, h]
  · by_cases h : tn ∈ CAPTAIN_WORKFLOW_TOOLS <;> simp [track_captain_tools, h]

/-- C10 witness: the tool name the repository's own test uses
(`some_other_tool`) leaves the state untouched and returns `None`. -/
theorem C10_witness :
    track_waiter_tools "some_other_tool" (fun _ => false)
      = ((fun _ => false : StateMap), none) :=
  (C10_tracker_noop "some_other_tool" (fun _ => false)).1 (by decide)

end RestaurantAgent
